import Mathlib

/-!
Verification development for the prorecom backend recommendation core.

The Python source is shallowly embedded: pure helper functions become Lean
functions over lists and rationals, the SQLAlchemy rows become structures,
the process-wide module state (src/settings.py globals) becomes an explicit
Settings record threaded through the functions, and exceptions become
Except / Option results.  External collaborators (the fastText embedding
model, sklearn KMeans, sklearn cosine_similarity) are parameters of the
embedding, constrained only by their documented behaviour.

Numeric values are modelled by the rationals; similarity scores are opaque
outputs of an abstract similarity function, since none of the checked
properties depend on the numeric details of cosine similarity.
-/

deriving instance DecidableEq for Except

namespace ProRecom

/-- EmbeddingVector: a vector is a list of rationals (numpy arrays of floats
in the source). -/
abbrev Vec := List ℚ

/-! ## Text normalizer (preprocess_skillsets in both engine files) -/

/-- Whitespace test for the Python str.split and str.strip operations
(ASCII whitespace as matched by the default string functions). -/
def pyIsSpace (c : Char) : Bool :=
  c == ' ' || c == '\t' || c == '\n' || c == '\x0b' || c == '\x0c' || c == '\r'

/-- Lowercasing of a single character, modelling str.lower on ASCII input:
uppercase ASCII letters map to lowercase, everything else is unchanged. -/
def pyLowerChar (c : Char) : Char :=
  if 'A' ≤ c ∧ c ≤ 'Z' then Char.ofNat (c.toNat + 32) else c

/-- Model of str.lower (ASCII). -/
def pyLower (s : List Char) : List Char := s.map pyLowerChar

/-- Model of str.strip: drop leading and trailing whitespace. -/
def pyStrip (s : List Char) : List Char :=
  ((s.dropWhile pyIsSpace).reverse.dropWhile pyIsSpace).reverse

/-- Characters kept by the regular expression substitution
re.sub removing every character outside lowercase letters, whitespace
and the plus sign (the source pattern also lists A-Z, but lowercasing
happens first, so on the substituted string only a-z can appear). -/
def keepChar (c : Char) : Bool :=
  (decide ('a' ≤ c) && decide (c ≤ 'z')) || pyIsSpace c || c == '+'

/-- Model of the re.sub call: delete every character not kept. -/
def reSubKeep (s : List Char) : List Char := s.filter keepChar

/-- Accumulator-based splitting on whitespace runs, modelling str.split with
no arguments: maximal non-whitespace runs, empty pieces discarded. -/
def pySplitAux : List Char → List Char → List (List Char)
  | [], acc => if acc.isEmpty then [] else [acc.reverse]
  | c :: rest, acc =>
    if pyIsSpace c then
      if acc.isEmpty then pySplitAux rest [] else acc.reverse :: pySplitAux rest []
    else pySplitAux rest (c :: acc)

/-- Model of str.split with no arguments. -/
def pySplit (s : List Char) : List (List Char) := pySplitAux s []

/-- Normalization of one raw skill string, as performed on each string by
preprocess_skillsets: lowercase, strip, delete characters outside the kept
class, split on whitespace. -/
def normalizeString (s : String) : List String :=
  (pySplit (reSubKeep (pyStrip (pyLower s.toList)))).map List.asString

/-- Normalization of one sub-list of skill strings: the inner loop of
preprocess_skillsets concatenates the token lists of the members. -/
def normalizeList (skills : List String) : List String :=
  (skills.map normalizeString).flatten

/-- Element of the argument of preprocess_skillsets: the Python function
distinguishes string elements from list elements with isinstance. -/
inductive SkillItem where
  | str : String → SkillItem
  | lst : List String → SkillItem
deriving DecidableEq

/-- Test used to set the user_skillset flag: true exactly on string items. -/
def SkillItem.isStr : SkillItem → Bool
  | .str _ => true
  | .lst _ => false

/-- Model of preprocess_skillsets (identical in
src/src/recommendations/project_recom_engine.py and
src/recommendations/recommendation_engine.py).  Each item is normalized;
if any item was a plain string the per-item results are flattened into a
single token list (inr), otherwise the per-item token lists are returned
unflattened (inl). -/
def preprocess_skillsets (skillsets : List SkillItem) :
    Sum (List (List String)) (List String) :=
  let pre := skillsets.map fun it =>
    match it with
    | .str s => normalizeString s
    | .lst l => normalizeList l
  if skillsets.any SkillItem.isStr then .inr pre.flatten else .inl pre

/-- Token list obtained by the call sites that pass a flat list of skill-name
strings (add_project, update_project, update_job_seeker, and the query side
of the old engine).  For a nonempty list of strings preprocess_skillsets
returns the flattened token list; for the empty input it returns the empty
list, whose flattening is again empty, so the two branches agree with the
source in all cases. -/
def flatTokens (skills : List String) : List String :=
  match preprocess_skillsets (skills.map SkillItem.str) with
  | .inl ls => ls.flatten
  | .inr ts => ts

/-! ## Vector synthesis -/

/-- Elementwise sum of two vectors (numpy broadcasting on equal shapes). -/
def vecAdd (a b : Vec) : Vec := List.zipWith (fun x y => x + y) a b

/-- Sum of a list of vectors of a common dimension. -/
def vecSum : List Vec → Vec
  | [] => []
  | v :: rest => rest.foldl vecAdd v

/-- Model of numpy mean over a list of vectors along axis 0.  On the empty
list numpy produces a NaN scalar (with a runtime warning) rather than a
vector; that degenerate outcome is represented by none. -/
def npMean (vs : List Vec) : Option Vec :=
  if vs.length = 0 then none
  else some ((vecSum vs).map (fun x => x / (vs.length : ℚ)))

/-- Vector synthesis as performed by the guarded call sites
(add_project and update_project in src/src/schemas/project.py,
update_job_seeker in src/src/schemas/job_seeker.py, and the project side of
cluster_projects in src/recommendations/recommendation_engine.py): normalize
the skill names, and take the mean of the token embeddings when at least one
token survives, otherwise the all-zero vector of the model dimension. -/
def synthesize (emb : String → Vec) (D : Nat) (skills : List String) : Vec :=
  let toks := flatTokens skills
  if toks.length > 0 then
    (vecSum (toks.map emb)).map (fun x => x / (toks.length : ℚ))
  else List.replicate D 0

/-- Query-entity-side synthesis in get_projects_recommendations of
src/recommendations/recommendation_engine.py: the mean of the token
embeddings is taken with no emptiness guard, so an empty token list reaches
numpy mean directly. -/
def query_side_vector (emb : String → Vec) (skills : List String) : Option Vec :=
  npMean ((flatTokens skills).map emb)

/-! ## Data model: database rows and process-wide state -/

/-- Row of the Project table (the fields used by the recommendation core):
conn.py declares project_status with default True and
project_skillset_vector as a nullable string column holding a JSON vector. -/
structure Project where
  project_id : Nat
  project_status : Bool
  project_skillset_vector : Option Vec
deriving DecidableEq

/-- Row of the JobSeeker table (the fields used by the recommendation core). -/
structure JobSeeker where
  seeker_id : Nat
  seeker_is_open_for_work : Bool
  seeker_skillset_vector : Option Vec
deriving DecidableEq

/-- Database contents relevant to the core. -/
structure DB where
  projects : List Project
  jobSeekers : List JobSeeker
deriving DecidableEq

/-- Process-wide mutable globals of src/settings.py (all initialized to
None on startup). -/
structure Settings where
  project_clusters : Option (List (List Nat))
  candidate_clusters : Option (List (List Nat))
  projects_skillset_vectors : Option (List (Vec × Nat))
  candidates_skillset_vectors : Option (List (Vec × Nat))
  projects_centroids : Option (List Vec)
  candidates_centroids : Option (List Vec)
deriving DecidableEq

/-- Startup state of the settings module: every global is None. -/
def Settings.initial : Settings :=
  ⟨none, none, none, none, none, none⟩

/-! ## External collaborator: sklearn KMeans -/

/-- Abstract model of sklearn KMeans (external library).  A fit over n
sample vectors with K clusters yields cluster_centers_ (a list of K
centroid vectors) and labels_ (one label below K per sample; the sklearn
implementation relocates empty clusters, so when at least K samples exist
every label below K occurs). -/
structure KMeansModel where
  run : List Vec → Nat → List Vec × List Nat
  centroids_length : ∀ vs K, (run vs K).1.length = K
  labels_length : ∀ vs K, (run vs K).2.length = vs.length
  labels_lt : ∀ vs K, 0 < K → ∀ l ∈ (run vs K).2, l < K
  labels_onto : ∀ vs K, 0 < K → K ≤ vs.length → ∀ c, c < K → c ∈ (run vs K).2

/-- Model of the KMeans(...).fit call: sklearn raises ValueError when the
number of samples is below the requested number of clusters. -/
def kmeans_fit (km : KMeansModel) (vs : List Vec) (K : Nat) :
    Except String (List Vec × List Nat) :=
  if vs.length < K then .error "ValueError: n_samples < n_clusters" else .ok (km.run vs K)

/-- Member-list construction loop shared by cluster_projects and
cluster_candidates: clusters start as K empty lists and each sample index i
is appended to the list at its label. -/
def buildClusters (K : Nat) (labels : List Nat) : List (List Nat) :=
  labels.enum.foldl (fun cs il => cs.set il.2 (cs.getD il.2 [] ++ [il.1]))
    (List.replicate K [])

/-! ## Ranking helpers -/

/-- Model of numpy argmax: index of the first occurrence of the maximum.
Numpy raises on an empty input; that unreachable case yields the junk
index 0 here (every use site guards nonemptiness). -/
def np_argmax : List ℚ → Nat
  | [] => 0
  | x :: xs =>
    match xs with
    | [] => 0
    | _ :: _ => if x < xs.getD (np_argmax xs) 0 then np_argmax xs + 1 else 0

/-- Insertion step of the stable descending sort: the new element is placed
before the first element whose score does not exceed it, so elements with
equal scores keep their original relative order. -/
def insertDesc (x : Nat × ℚ) : List (Nat × ℚ) → List (Nat × ℚ)
  | [] => [x]
  | y :: ys => if x.2 < y.2 then y :: insertDesc x ys else x :: y :: ys

/-- Model of the Python builtin sorted(..., key=lambda p: p[1], reverse=True):
a stable sort by score descending.  Any stable descending sort computes the
same output, so a stable insertion sort is an exact model. -/
def sortDesc : List (Nat × ℚ) → List (Nat × ℚ)
  | [] => []
  | x :: xs => insertDesc x (sortDesc xs)

/-- Shared tail of get_ranked_projects and get_ranked_candidates, applied
once the three globals are non-None: similarity of the query against every
centroid, argmax choice of one cluster, similarity against the members of
that cluster only, and a stable descending sort of (entity id, score) pairs.
Error cases mirror the library exceptions: numpy argmax on an empty
centroid list, list indexing out of range, and sklearn cosine_similarity on
an empty member matrix. -/
def rank_members (sim : Vec → Vec → ℚ) (q : Vec) (centroids : List Vec)
    (clusters : List (List Nat)) (vecs : List (Vec × Nat)) :
    Except String (List (Nat × ℚ)) :=
  if centroids.isEmpty then .error "ValueError: argmax of an empty sequence"
  else
    let sims := centroids.map (fun c => sim q c)
    let ci := np_argmax sims
    match clusters[ci]? with
    | none => .error "IndexError: list index out of range"
    | some members =>
      if members.all (fun i => i < vecs.length) then
        if members.isEmpty then .error "ValueError: empty member matrix"
        else
          .ok (sortDesc (members.map (fun i =>
            ((vecs.getD i ([], 0)).2, sim q (vecs.getD i ([], 0)).1))))
      else .error "IndexError: list index out of range"

/-! ## Corpus loading -/

/-- Loop body of get_projects_skillsets in
src/src/recommendations/project_recom_engine.py: every selected row has
json.loads applied to its stored vector, which raises TypeError when the
column is NULL. -/
def loadProjectVectors : List Project → Except String (List (Vec × Nat))
  | [] => .ok []
  | p :: rest =>
    match p.project_skillset_vector with
    | none => .error "TypeError: the JSON object must be str, not NoneType"
    | some v =>
      match loadProjectVectors rest with
      | .error e => .error e
      | .ok tail => .ok ((v, p.project_id) :: tail)

/-- Model of get_projects_skillsets: select the projects with
project_status True and decode each stored vector. -/
def get_projects_skillsets (db : DB) : Except String (List (Vec × Nat)) :=
  loadProjectVectors (db.projects.filter (·.project_status))

/-- Model of get_user_skillsets in
src/src/recommendations/candidates_recom_engine.py: select the job seekers
open for work; a NULL stored vector is replaced by the all-zero vector of
the model dimension. -/
def get_user_skillsets_all (D : Nat) (db : DB) : List (Vec × Nat) :=
  (db.jobSeekers.filter (·.seeker_is_open_for_work)).map
    (fun j => (j.seeker_skillset_vector.getD (List.replicate D 0), j.seeker_id))

/-! ## Cluster builds -/

/-- Model of cluster_projects in
src/src/recommendations/project_recom_engine.py.  The result pairs the
settings state after the call with the raised exception, if any: the Python
globals mutated before an exception keep their new values, so the state is
returned even on the error path.  Note the assignment to
projects_skillset_vectors happens before the KMeans fit, and there is no
corpus-size guard. -/
def cluster_projects (km : KMeansModel) (db : DB) (s : Settings)
    (refresh : Bool) : Settings × Option String :=
  if s.project_clusters = none ∨ refresh then
    match get_projects_skillsets db with
    | .error e => (s, some e)
    | .ok vecs =>
      let s1 := { s with projects_skillset_vectors := some vecs }
      match kmeans_fit km (vecs.map Prod.fst) 8 with
      | .error e => (s1, some e)
      | .ok r =>
        ({ s1 with projects_centroids := some r.1,
                   project_clusters := some (buildClusters 8 r.2) }, none)
  else (s, none)

/-- Model of cluster_candidates in
src/src/recommendations/candidates_recom_engine.py.  Unlike the project
build, a corpus below 4 returns early, before any global is assigned and
without raising. -/
def cluster_candidates (km : KMeansModel) (D : Nat) (db : DB) (s : Settings)
    (refresh : Bool) : Settings × Option String :=
  if s.candidate_clusters = none ∨ refresh then
    let cvs := get_user_skillsets_all D db
    if cvs.length < 4 then (s, none)
    else
      let s1 := { s with candidates_skillset_vectors := some cvs }
      match kmeans_fit km (cvs.map Prod.fst) 4 with
      | .error e => (s1, some e)
      | .ok r =>
        ({ s1 with candidates_centroids := some r.1,
                   candidate_clusters := some (buildClusters 4 r.2) }, none)
  else (s, none)

/-! ## Ranking entry points -/

/-- Model of get_ranked_projects: run the lazy cluster build, then rank.
When any of the three project globals is still None the Python code raises
TypeError (iterating or subscripting None); all three are read by the
ranking body, so the None checks are collapsed into one error case. -/
def get_ranked_projects (km : KMeansModel) (sim : Vec → Vec → ℚ) (db : DB)
    (s : Settings) (q : Vec) : Settings × Except String (List (Nat × ℚ)) :=
  match cluster_projects km db s false with
  | (s1, some e) => (s1, .error e)
  | (s1, none) =>
    match s1.projects_centroids, s1.project_clusters, s1.projects_skillset_vectors with
    | some cents, some cls, some vecs => (s1, rank_members sim q cents cls vecs)
    | _, _, _ => (s1, .error "TypeError: NoneType is not iterable")

/-- Model of get_ranked_candidates, symmetric to get_ranked_projects. -/
def get_ranked_candidates (km : KMeansModel) (sim : Vec → Vec → ℚ) (D : Nat)
    (db : DB) (s : Settings) (q : Vec) :
    Settings × Except String (List (Nat × ℚ)) :=
  match cluster_candidates km D db s false with
  | (s1, some e) => (s1, .error e)
  | (s1, none) =>
    match s1.candidates_centroids, s1.candidate_clusters, s1.candidates_skillset_vectors with
    | some cents, some cls, some vecs => (s1, rank_members sim q cents cls vecs)
    | _, _, _ => (s1, .error "TypeError: NoneType is not iterable")

/-! ## Mutations (the schema layer) -/

/-- Input of the create_project mutation, reduced to the fields the core
reads.  The skills field carries the resolved skill names; the source
guards the vector computation with an is-not-None test, so the absent case
is represented here. -/
structure CreateProjectInput where
  project_id : Nat
  project_status : Bool
  skills : Option (List String)

/-- Database after the insert step of create_project: the new row carries
the synthesized vector when skills were given and NULL otherwise. -/
def addedProjectDb (emb : String → Vec) (D : Nat) (inp : CreateProjectInput)
    (db : DB) : DB :=
  { db with projects := db.projects ++
      [{ project_id := inp.project_id
         project_status := inp.project_status
         project_skillset_vector := inp.skills.map (synthesize emb D) }] }

/-- Model of the create_project mutation in src/src/schemas/project.py:
the new row is inserted (with a NULL vector when no skills were given),
the transaction commits, and cluster_projects is called with refresh=True
inside the surrounding try block; an exception from the rebuild is caught
and turned into a failure response, but the insert and any global mutations
persist.  The Bool result is the success flag of the response. -/
def add_project (km : KMeansModel) (emb : String → Vec) (D : Nat)
    (inp : CreateProjectInput) (db : DB) (s : Settings) :
    DB × Settings × Bool :=
  match cluster_projects km (addedProjectDb emb D inp db) s true with
  | (s1, none) => (addedProjectDb emb D inp db, s1, true)
  | (s1, some _) => (addedProjectDb emb D inp db, s1, false)

/-- Database after the delete step of delete_project: every row with the
given id is removed. -/
def deletedProjectDb (db : DB) (pid : Nat) : DB :=
  { db with projects := db.projects.filter (fun p => ¬ p.project_id = pid) }

/-- Model of the delete_project mutation in src/src/schemas/project.py:
when no row matches, the mutation reports failure without touching
anything; otherwise the row is deleted, the transaction commits, and
cluster_projects runs with refresh=True inside the try block, its
exceptions caught after the deletion has been committed. -/
def delete_project (km : KMeansModel) (db : DB) (s : Settings) (pid : Nat) :
    DB × Settings × Bool :=
  if (db.projects.filter (fun p => p.project_id = pid)).isEmpty then (db, s, false)
  else
    match cluster_projects km (deletedProjectDb db pid) s true with
    | (s1, none) => (deletedProjectDb db pid, s1, true)
    | (s1, some _) => (deletedProjectDb db pid, s1, false)

/-- Input of the update_job_seeker mutation, reduced to the fields the core
reads.  As in the source, a None field leaves the column unchanged. -/
structure UpdateJobSeekerInput where
  seeker_id : Nat
  seeker_is_open_for_work : Option Bool
  skills : Option (List String)

/-- Database after the update step of update_job_seeker: the matching row
takes the provided fields; a provided skills list is synthesized into a new
stored vector, absent fields stay unchanged. -/
def updatedSeekerDb (emb : String → Vec) (D : Nat)
    (inp : UpdateJobSeekerInput) (db : DB) : DB :=
  { db with jobSeekers := db.jobSeekers.map (fun j =>
      if j.seeker_id = inp.seeker_id then
        { j with
          seeker_is_open_for_work :=
            inp.seeker_is_open_for_work.getD j.seeker_is_open_for_work
          seeker_skillset_vector :=
            match inp.skills with
            | none => j.seeker_skillset_vector
            | some sk => some (synthesize emb D sk) }
      else j) }

/-- Model of the update_job_seeker mutation in
src/src/schemas/job_seeker.py: when the seeker exists the given fields are
updated (a provided skills list is synthesized and stored), the transaction
commits, and cluster_candidates runs with refresh=True. -/
def update_job_seeker (km : KMeansModel) (emb : String → Vec) (D : Nat)
    (inp : UpdateJobSeekerInput) (db : DB) (s : Settings) :
    DB × Settings × Bool :=
  if (db.jobSeekers.filter (fun j => j.seeker_id = inp.seeker_id)).isEmpty then
    (db, s, false)
  else
    match cluster_candidates km D (updatedSeekerDb emb D inp db) s true with
    | (s1, none) => (updatedSeekerDb emb D inp db, s1, true)
    | (s1, some _) => (updatedSeekerDb emb D inp db, s1, false)

/-! ## Concrete instances used to evaluate the model on closed inputs -/

/-- Concrete KMeans instance satisfying the documented sklearn contract:
sample i is labelled i when i is below K and 0 otherwise, and the centroid
list has K entries. -/
def kmeansTrivial : KMeansModel where
  run vs K :=
    (List.replicate K [], (List.range vs.length).map (fun i => if i < K then i else 0))
  centroids_length vs K := by simp
  labels_length vs K := by simp
  labels_lt vs K hK l hl := by
    simp only [List.mem_map, List.mem_range] at hl
    obtain ⟨i, _, rfl⟩ := hl
    by_cases h : i < K <;> simp [h, hK]
  labels_onto vs K hK hKn c hc := by
    simp only [List.mem_map, List.mem_range]
    exact ⟨c, lt_of_lt_of_le hc hKn, by simp [hc]⟩

/-- Constant similarity function used for closed evaluations: the claims
quantify over the similarity function, so any concrete choice serves. -/
def simZero : Vec → Vec → ℚ := fun _ _ => 0

/-- Constant embedding provider used for closed evaluations. -/
def embConst : String → Vec := fun _ => [0]

/-- Partition property of a cluster index over the index range below n:
exactly K member lists, every index below n in exactly one list, no
duplicates, and no member outside the range. -/
def IsPartition (K n : Nat) (cls : List (List Nat)) : Prop :=
  cls.length = K ∧
  (∀ j, j < n → ∃ c, c < K ∧ j ∈ cls.getD c [] ∧
    ∀ d, d < K → j ∈ cls.getD d [] → d = c) ∧
  ∀ c, c < K → (cls.getD c []).Nodup ∧ ∀ j ∈ cls.getD c [], j < n

/-- Database with two open-for-work job seekers: a corpus below the
candidate cluster count. -/
def dbTwoSeekers : DB := ⟨[], [⟨1, true, some [1]⟩, ⟨2, true, some [1]⟩]⟩

/-- Database with seven active projects, each with a stored vector. -/
def dbSevenProjects : DB :=
  ⟨[⟨1, true, some [1]⟩, ⟨2, true, some [1]⟩, ⟨3, true, some [1]⟩,
    ⟨4, true, some [1]⟩, ⟨5, true, some [1]⟩, ⟨6, true, some [1]⟩,
    ⟨7, true, some [1]⟩], []⟩

/-- Database with eight active projects, each with a stored vector. -/
def dbEightProjects : DB :=
  ⟨[⟨1, true, some [1]⟩, ⟨2, true, some [1]⟩, ⟨3, true, some [1]⟩,
    ⟨4, true, some [1]⟩, ⟨5, true, some [1]⟩, ⟨6, true, some [1]⟩,
    ⟨7, true, some [1]⟩, ⟨8, true, some [1]⟩], []⟩

/-- Database with four open-for-work job seekers. -/
def dbFourSeekers : DB :=
  ⟨[], [⟨1, true, some [1]⟩, ⟨2, true, some [1]⟩, ⟨3, true, some [1]⟩,
    ⟨4, true, some [1]⟩]⟩

/-- Database holding one active project whose stored vector is NULL. -/
def dbNullProject : DB := ⟨[⟨1, true, none⟩], []⟩

/-- Database with nine active projects, each with a stored vector. -/
def dbNineProjects : DB :=
  ⟨[⟨1, true, some [1]⟩, ⟨2, true, some [1]⟩, ⟨3, true, some [1]⟩,
    ⟨4, true, some [1]⟩, ⟨5, true, some [1]⟩, ⟨6, true, some [1]⟩,
    ⟨7, true, some [1]⟩, ⟨8, true, some [1]⟩, ⟨9, true, some [1]⟩], []⟩

/-- Settings state carrying a stale cached project partition, as left by an
earlier build over a different corpus. -/
def staleSettings : Settings :=
  { project_clusters := some [[0]]
    candidate_clusters := none
    projects_skillset_vectors := some [([1], 99)]
    candidates_skillset_vectors := none
    projects_centroids := some [[1]]
    candidates_centroids := none }

/-! ## Lemmas about the text normalizer -/

/-- Tokens produced by the splitting loop are nonempty, and each of their
characters comes from the accumulator or is a non-whitespace character of
the remaining input. -/
theorem pySplitAux_tokens (s : List Char) : ∀ (acc : List Char),
    ∀ t ∈ pySplitAux s acc,
      t ≠ [] ∧ ∀ c ∈ t, c ∈ acc ∨ (c ∈ s ∧ pyIsSpace c = false) := by
  induction s with
  | nil =>
    intro acc t ht
    simp only [pySplitAux] at ht
    by_cases h : acc.isEmpty
    · simp [h] at ht
    · simp only [h, Bool.false_eq_true, ite_false, List.mem_singleton] at ht
      subst ht
      have hacc : acc ≠ [] := by
        intro hc
        simp [hc] at h
      refine ⟨by simpa using hacc, ?_⟩
      intro c hc
      exact Or.inl (List.mem_reverse.mp hc)
  | cons a rest ih =>
    intro acc t ht
    simp only [pySplitAux] at ht
    by_cases hsp : pyIsSpace a
    · simp only [hsp, if_pos] at ht
      by_cases h : acc.isEmpty
      · simp only [h, if_pos] at ht
        obtain ⟨hne, hch⟩ := ih [] t ht
        refine ⟨hne, fun c hc => ?_⟩
        rcases hch c hc with h1 | h2
        · simp at h1
        · exact Or.inr ⟨List.mem_cons_of_mem _ h2.1, h2.2⟩
      · simp only [h, Bool.false_eq_true, ite_false, List.mem_cons] at ht
        rcases ht with rfl | ht
        · constructor
          · intro hc
            rw [List.reverse_eq_nil_iff] at hc
            simp [hc] at h
          · intro c hc
            exact Or.inl (List.mem_reverse.mp hc)
        · obtain ⟨hne, hch⟩ := ih [] t ht
          refine ⟨hne, fun c hc => ?_⟩
          rcases hch c hc with h1 | h2
          · simp at h1
          · exact Or.inr ⟨List.mem_cons_of_mem _ h2.1, h2.2⟩
    · simp only [hsp, Bool.false_eq_true, ite_false] at ht
      obtain ⟨hne, hch⟩ := ih (a :: acc) t ht
      refine ⟨hne, fun c hc => ?_⟩
      rcases hch c hc with h1 | h2
      · rcases List.mem_cons.mp h1 with rfl | h1
        · exact Or.inr ⟨List.mem_cons_self _ _, by simpa using hsp⟩
        · exact Or.inl h1
      · exact Or.inr ⟨List.mem_cons_of_mem _ h2.1, h2.2⟩

/-- Character-level guarantee of the normalizer: every emitted token is a
nonempty string of lowercase letters and plus signs.  Unknown characters
are dropped, never an error. -/
theorem normalizeString_tokens (s : String) :
    ∀ t ∈ normalizeString s,
      t ≠ "" ∧ ∀ c ∈ t.toList, ('a' ≤ c ∧ c ≤ 'z') ∨ c = '+' := by
  intro t ht
  simp only [normalizeString, List.mem_map] at ht
  obtain ⟨l, hl, rfl⟩ := ht
  obtain ⟨hne, hch⟩ := pySplitAux_tokens _ [] l hl
  constructor
  · intro hc
    exact hne (congrArg String.toList hc)
  · intro c hc
    have hc' : c ∈ l := hc
    rcases hch c hc' with h1 | h2
    · simp at h1
    · obtain ⟨hmem, hnsp⟩ := h2
      have hkeep : keepChar c = true := (List.mem_filter.mp hmem).2
      simp only [keepChar, Bool.or_eq_true, Bool.and_eq_true, decide_eq_true_eq,
        beq_iff_eq] at hkeep
      rcases hkeep with (⟨h1, h2⟩ | hsp) | hplus
      · exact Or.inl ⟨h1, h2⟩
      · rw [hnsp] at hsp; cases hsp
      · exact Or.inr hplus

/-- Normalization of a flat list of skill-name strings: the per-string token
lists are flattened into a single token sequence. -/
theorem preprocess_flat (skills : List String) (h : skills ≠ []) :
    preprocess_skillsets (skills.map SkillItem.str)
      = .inr ((skills.map normalizeString).flatten) := by
  cases skills with
  | nil => exact absurd rfl h
  | cons a as =>
    simp [preprocess_skillsets, SkillItem.isStr, List.map_map, Function.comp_def]

/-- Normalization of a list of sub-lists: one token sequence per sub-list,
not flattened. -/
theorem preprocess_nested (sks : List (List String)) :
    preprocess_skillsets (sks.map SkillItem.lst) = .inl (sks.map normalizeList) := by
  have hany : (sks.map SkillItem.lst).any SkillItem.isStr = false := by
    simp only [List.any_eq_false]
    intro x hx
    simp only [List.mem_map] at hx
    obtain ⟨l, _, rfl⟩ := hx
    simp [SkillItem.isStr]
  simp [preprocess_skillsets, hany, List.map_map, Function.comp_def]

/-! ## Lemmas about vector synthesis -/

/-- Guarded synthesis with no surviving token yields the all-zero vector. -/
theorem synthesize_no_tokens (emb : String → Vec) (D : Nat)
    (skills : List String) (h : flatTokens skills = []) :
    synthesize emb D skills = List.replicate D 0 := by
  simp [synthesize, h]

/-- Unguarded query-side synthesis with no surviving token reaches numpy
mean of an empty list, which does not produce a vector. -/
theorem query_side_no_tokens (emb : String → Vec) (skills : List String)
    (h : flatTokens skills = []) :
    query_side_vector emb skills = none := by
  simp [query_side_vector, h, npMean]

/-- Synthesis is a function of the normalized token list: skill lists that
normalize identically produce identical vectors for every embedding
provider and dimension. -/
theorem synthesize_congr (emb : String → Vec) (D : Nat)
    (s1 s2 : List String) (h : flatTokens s1 = flatTokens s2) :
    synthesize emb D s1 = synthesize emb D s2 := by
  simp only [synthesize, h]

/-! ## Lemmas about the member-list construction -/

/-- Length invariant of the append-at-label fold. -/
theorem buildFold_length (pairs : List (Nat × Nat)) : ∀ cs : List (List Nat),
    (pairs.foldl (fun cs il => cs.set il.2 (cs.getD il.2 [] ++ [il.1])) cs).length
      = cs.length := by
  induction pairs with
  | nil => intro cs; rfl
  | cons p rest ih =>
    intro cs
    rw [List.foldl_cons, ih, List.length_set]

/-- Per-index characterization of the append-at-label fold: index c collects
its initial content followed by the first components of the pairs labelled
c, in order. -/
theorem buildFold_getD (pairs : List (Nat × Nat)) : ∀ (cs : List (List Nat))
    (c : Nat), c < cs.length →
    (pairs.foldl (fun cs il => cs.set il.2 (cs.getD il.2 [] ++ [il.1])) cs).getD c []
      = cs.getD c [] ++ (pairs.filter (fun il => il.2 = c)).map Prod.fst := by
  induction pairs with
  | nil => simp
  | cons p rest ih =>
    intro cs c hc
    rw [List.foldl_cons, ih _ c (by rw [List.length_set]; exact hc)]
    by_cases h : p.2 = c
    · have hset : (cs.set p.2 (cs.getD p.2 [] ++ [p.1])).getD c []
          = cs.getD c [] ++ [p.1] := by
        subst h
        rw [List.getD_eq_getElem?_getD, List.getElem?_set_self hc]
        rfl
      rw [hset, List.filter_cons_of_pos (by simpa using h), List.map_cons,
        List.append_assoc]
      rfl
    · have hset : (cs.set p.2 (cs.getD p.2 [] ++ [p.1])).getD c []
          = cs.getD c [] := by
        rw [List.getD_eq_getElem?_getD, List.getElem?_set_ne h,
          List.getD_eq_getElem?_getD]
      rw [hset, List.filter_cons_of_neg (by simpa using h)]

/-- A cluster index has exactly K member lists. -/
theorem buildClusters_length (K : Nat) (labels : List Nat) :
    (buildClusters K labels).length = K := by
  rw [buildClusters, buildFold_length, List.length_replicate]

/-- Member list c holds exactly the sample indices labelled c, in increasing
order of index. -/
theorem buildClusters_getD (K : Nat) (labels : List Nat) (c : Nat) (hc : c < K) :
    (buildClusters K labels).getD c []
      = (labels.enum.filter (fun il => il.2 = c)).map Prod.fst := by
  rw [buildClusters, buildFold_getD _ _ c (by simpa using hc)]
  have : (List.replicate K ([] : List Nat)).getD c [] = [] := by
    rw [List.getD_eq_getElem?_getD, List.getElem?_replicate, if_pos hc]
    rfl
  rw [this, List.nil_append]

/-- Membership in member list c is labelling with c. -/
theorem mem_buildClusters_iff (K : Nat) (labels : List Nat) (c j : Nat)
    (hc : c < K) :
    j ∈ (buildClusters K labels).getD c []
      ↔ ∃ h : j < labels.length, labels[j] = c := by
  rw [buildClusters_getD K labels c hc]
  constructor
  · intro hj
    simp only [List.mem_map, List.mem_filter] at hj
    obtain ⟨il, ⟨hmem, hlab⟩, rfl⟩ := hj
    have h1 := List.mem_enumFrom hmem
    simp only [Nat.zero_le, Nat.zero_add, Nat.sub_zero, true_and] at h1
    refine ⟨h1.1, ?_⟩
    simp only [decide_eq_true_eq] at hlab
    rw [← h1.2, hlab]
  · rintro ⟨h, hlab⟩
    simp only [List.mem_map, List.mem_filter]
    refine ⟨(j, c), ⟨?_, by simp⟩, rfl⟩
    have hj : j < labels.enum.length := by simpa [List.enum_length] using h
    have := List.getElem_enum labels j hj
    rw [hlab] at this
    rw [← this]
    exact List.getElem_mem hj

/-- Member lists have no duplicate indices. -/
theorem buildClusters_nodup (K : Nat) (labels : List Nat) (c : Nat)
    (hc : c < K) : ((buildClusters K labels).getD c []).Nodup := by
  rw [buildClusters_getD K labels c hc]
  have hsub : ((labels.enum.filter (fun il => il.2 = c)).map Prod.fst).Sublist
      (labels.enum.map Prod.fst) := (List.filter_sublist _).map _
  rw [List.enum_map_fst] at hsub
  exact hsub.nodup (List.nodup_range _)

/-! ## Lemmas about argmax -/

/-- Unfolding equation of np_argmax on a list of two or more entries. -/
theorem np_argmax_cons2 (x y : ℚ) (rest : List ℚ) :
    np_argmax (x :: y :: rest)
      = if x < (y :: rest).getD (np_argmax (y :: rest)) 0
        then np_argmax (y :: rest) + 1 else 0 := rfl

/-- Argmax of a nonempty list is a valid index. -/
theorem np_argmax_lt_length : ∀ xs : List ℚ, xs ≠ [] → np_argmax xs < xs.length
  | [], h => absurd rfl h
  | [_], _ => by simp [np_argmax]
  | x :: y :: rest, _ => by
    have ih := np_argmax_lt_length (y :: rest) (by simp)
    rw [np_argmax_cons2]
    by_cases h : x < (y :: rest).getD (np_argmax (y :: rest)) 0
    · rw [if_pos h]
      simpa using Nat.succ_lt_succ ih
    · rw [if_neg h]
      simp

/-- The value at the argmax index dominates every entry. -/
theorem np_argmax_is_max : ∀ (xs : List ℚ) (j : Nat), j < xs.length →
    xs.getD j 0 ≤ xs.getD (np_argmax xs) 0
  | [], j, hj => by simp at hj
  | [x], j, hj => by
    have : j = 0 := by simpa using hj
    subst this
    simp [np_argmax]
  | x :: y :: rest, j, hj => by
    rw [np_argmax_cons2]
    by_cases h : x < (y :: rest).getD (np_argmax (y :: rest)) 0
    · rw [if_pos h, List.getD_cons_succ]
      cases j with
      | zero => simpa using le_of_lt h
      | succ k =>
        rw [List.getD_cons_succ]
        exact np_argmax_is_max (y :: rest) k (by simpa using hj)
    · rw [if_neg h]
      cases j with
      | zero => simp
      | succ k =>
        rw [List.getD_cons_succ, List.getD_cons_zero]
        exact le_trans (np_argmax_is_max (y :: rest) k (by simpa using hj))
          (not_lt.mp h)

/-- Entries before the argmax index are strictly below the maximum: the
argmax is the first occurrence of the maximum. -/
theorem np_argmax_first : ∀ (xs : List ℚ) (j : Nat), j < np_argmax xs →
    xs.getD j 0 < xs.getD (np_argmax xs) 0
  | [], j, hj => by simp [np_argmax] at hj
  | [x], j, hj => by simp [np_argmax] at hj
  | x :: y :: rest, j, hj => by
    rw [np_argmax_cons2] at hj ⊢
    by_cases h : x < (y :: rest).getD (np_argmax (y :: rest)) 0
    · rw [if_pos h] at hj ⊢
      rw [List.getD_cons_succ]
      cases j with
      | zero =>
        rw [List.getD_cons_zero]
        exact h
      | succ k =>
        rw [List.getD_cons_succ]
        exact np_argmax_first (y :: rest) k (Nat.lt_of_succ_lt_succ hj)
    · rw [if_neg h] at hj
      exact absurd hj (Nat.not_lt_zero j)

/-! ## Lemmas about the stable descending sort -/

/-- Insertion produces a permutation of consing. -/
theorem insertDesc_perm (x : Nat × ℚ) (l : List (Nat × ℚ)) :
    (insertDesc x l).Perm (x :: l) := by
  induction l with
  | nil => exact List.Perm.refl _
  | cons y ys ih =>
    simp only [insertDesc]
    by_cases h : x.2 < y.2
    · simp only [h, if_pos]
      exact (ih.cons y).trans (List.Perm.swap x y ys)
    · simp [h]

/-- The sort is a permutation of its input. -/
theorem sortDesc_perm (l : List (Nat × ℚ)) : (sortDesc l).Perm l := by
  induction l with
  | nil => exact List.Perm.refl _
  | cons x xs ih =>
    exact (insertDesc_perm x (sortDesc xs)).trans (ih.cons x)

/-- Insertion preserves the descending-by-score order. -/
theorem insertDesc_sorted (x : Nat × ℚ) (l : List (Nat × ℚ))
    (h : l.Pairwise (fun a b => b.2 ≤ a.2)) :
    (insertDesc x l).Pairwise (fun a b => b.2 ≤ a.2) := by
  induction l with
  | nil => simp [insertDesc]
  | cons y ys ih =>
    rw [List.pairwise_cons] at h
    obtain ⟨hy, hys⟩ := h
    simp only [insertDesc]
    by_cases hxy : x.2 < y.2
    · simp only [hxy, if_pos]
      rw [List.pairwise_cons]
      constructor
      · intro z hz
        have hz' : z ∈ x :: ys := (insertDesc_perm x ys).mem_iff.mp hz
        rcases List.mem_cons.mp hz' with rfl | hz''
        · exact le_of_lt hxy
        · exact hy z hz''
      · exact ih hys
    · simp only [hxy, Bool.false_eq_true, ite_false]
      rw [List.pairwise_cons]
      constructor
      · intro z hz
        rcases List.mem_cons.mp hz with rfl | hz'
        · exact not_lt.mp hxy
        · exact le_trans (hy z hz') (not_lt.mp hxy)
      · exact List.pairwise_cons.mpr ⟨hy, hys⟩

/-- The sorted output is descending by score. -/
theorem sortDesc_sorted (l : List (Nat × ℚ)) :
    (sortDesc l).Pairwise (fun a b => b.2 ≤ a.2) := by
  induction l with
  | nil => simp [sortDesc]
  | cons x xs ih => exact insertDesc_sorted x (sortDesc xs) ih

/-- Stability of the insertion step: restricting to any fixed score, the
inserted element lands in front, exactly as consing it would. -/
theorem insertDesc_filter (x : Nat × ℚ) (l : List (Nat × ℚ)) (c : ℚ) :
    (insertDesc x l).filter (fun p => p.2 = c)
      = (x :: l).filter (fun p => p.2 = c) := by
  induction l with
  | nil => rfl
  | cons y ys ih =>
    simp only [insertDesc]
    by_cases hxy : x.2 < y.2
    · simp only [hxy, if_pos]
      by_cases hyc : y.2 = c
      · by_cases hxc : x.2 = c
        · exact absurd hxy (by rw [hxc, hyc]; exact lt_irrefl c)
        · rw [List.filter_cons_of_pos (by simpa using hyc), ih,
            List.filter_cons_of_neg (by simpa using hxc),
            List.filter_cons_of_neg (by simpa using hxc),
            List.filter_cons_of_pos (by simpa using hyc)]
      · rw [List.filter_cons_of_neg (by simpa using hyc), ih]
        by_cases hxc : x.2 = c
        · rw [List.filter_cons_of_pos (by simpa using hxc),
            List.filter_cons_of_pos (by simpa using hxc),
            List.filter_cons_of_neg (by simpa using hyc)]
        · rw [List.filter_cons_of_neg (by simpa using hxc),
            List.filter_cons_of_neg (by simpa using hxc),
            List.filter_cons_of_neg (by simpa using hyc)]
    · simp [hxy]

/-- Stability of the sort: for every score value, the subsequence of pairs
carrying that score is unchanged. -/
theorem sortDesc_filter (l : List (Nat × ℚ)) (c : ℚ) :
    (sortDesc l).filter (fun p => p.2 = c) = l.filter (fun p => p.2 = c) := by
  induction l with
  | nil => rfl
  | cons x xs ih =>
    rw [sortDesc, insertDesc_filter]
    by_cases hxc : x.2 = c
    · rw [List.filter_cons_of_pos (by simpa using hxc), ih,
        List.filter_cons_of_pos (by simpa using hxc)]
    · rw [List.filter_cons_of_neg (by simpa using hxc), ih,
        List.filter_cons_of_neg (by simpa using hxc)]

/-! ## Lemmas about the ranking core -/

/-- Elimination form of a successful ranking: the output is the stable
descending sort of the id-score pairs of the members of the argmax cluster,
whose indices are all within the vector snapshot. -/
theorem rank_members_ok_elim {sim : Vec → Vec → ℚ} {q : Vec}
    {cents : List Vec} {cls : List (List Nat)} {vecs : List (Vec × Nat)}
    {out : List (Nat × ℚ)}
    (h : rank_members sim q cents cls vecs = .ok out) :
    ∃ members, cls[np_argmax (cents.map (fun c => sim q c))]? = some members ∧
      (∀ i ∈ members, i < vecs.length) ∧ members ≠ [] ∧
      out = sortDesc (members.map (fun i =>
        ((vecs.getD i ([], 0)).2, sim q (vecs.getD i ([], 0)).1))) := by
  simp only [rank_members] at h
  split at h
  · cases h
  · split at h
    · cases h
    · rename_i members heq
      split at h
      · split at h
        · cases h
        · rename_i hall hne
          refine ⟨members, heq, ?_, ?_, ?_⟩
          · intro i hi
            have := List.all_eq_true.mp hall i hi
            simpa using this
          · intro hc
            rw [hc] at hne
            simp at hne
          · exact (Except.ok.inj h).symm
      · cases h

/-- Introduction form of a successful ranking. -/
theorem rank_members_ok_intro (sim : Vec → Vec → ℚ) (q : Vec)
    (cents : List Vec) (cls : List (List Nat)) (vecs : List (Vec × Nat))
    (members : List Nat)
    (h1 : cents ≠ [])
    (h2 : cls[np_argmax (cents.map (fun c => sim q c))]? = some members)
    (h3 : ∀ i ∈ members, i < vecs.length) (h4 : members ≠ []) :
    rank_members sim q cents cls vecs
      = .ok (sortDesc (members.map (fun i =>
          ((vecs.getD i ([], 0)).2, sim q (vecs.getD i ([], 0)).1)))) := by
  simp only [rank_members]
  rw [if_neg (by simpa using h1), h2]
  dsimp only
  rw [if_pos (List.all_eq_true.mpr (fun i hi => by simpa using h3 i hi))]
  rw [if_neg (by simpa using h4)]

/-- Every id in a successful ranking is the id of an entry of the vector
snapshot passed to the ranking core. -/
theorem rank_members_ok_ids {sim : Vec → Vec → ℚ} {q : Vec}
    {cents : List Vec} {cls : List (List Nat)} {vecs : List (Vec × Nat)}
    {out : List (Nat × ℚ)}
    (h : rank_members sim q cents cls vecs = .ok out) :
    ∀ pr ∈ out, ∃ v, (v, pr.1) ∈ vecs := by
  intro pr hpr
  obtain ⟨members, _, hbound, _, hout⟩ := rank_members_ok_elim h
  rw [hout] at hpr
  have hpr' := (sortDesc_perm _).mem_iff.mp hpr
  simp only [List.mem_map] at hpr'
  obtain ⟨i, hi, rfl⟩ := hpr'
  have hlt : i < vecs.length := hbound i hi
  refine ⟨(vecs.getD i ([], 0)).1, ?_⟩
  rw [List.getD_eq_getElem?_getD, List.getElem?_eq_getElem hlt]
  simp only [Option.getD_some, Prod.mk.eta]
  exact List.getElem_mem hlt

/-! ## Lemmas about corpus loading -/

/-- Loading fails exactly when some selected row has a NULL vector. -/
theorem loadProjectVectors_error_iff (ps : List Project) :
    (∃ e, loadProjectVectors ps = .error e)
      ↔ ∃ p ∈ ps, p.project_skillset_vector = none := by
  induction ps with
  | nil => simp [loadProjectVectors]
  | cons p rest ih =>
    simp only [loadProjectVectors]
    cases hv : p.project_skillset_vector with
    | none => simp [hv]
    | some v =>
      cases hr : loadProjectVectors rest with
      | error e =>
        simp only [List.mem_cons]
        constructor
        · intro _
          obtain ⟨q, hq, hqn⟩ := ih.mp ⟨e, hr⟩
          exact ⟨q, Or.inr hq, hqn⟩
        · intro _
          exact ⟨e, rfl⟩
      | ok tail =>
        simp only [List.mem_cons]
        constructor
        · rintro ⟨e, he⟩
          cases he
        · rintro ⟨q, hq | hq, hqn⟩
          · subst hq
            rw [hv] at hqn
            cases hqn
          · obtain ⟨e, he⟩ := ih.mpr ⟨q, hq, hqn⟩
            rw [he] at hr
            cases hr

/-- Successful loading yields one entry per selected row, carrying the row
ids in order. -/
theorem loadProjectVectors_ok_ids (ps : List Project) (vecs : List (Vec × Nat))
    (h : loadProjectVectors ps = .ok vecs) :
    vecs.map Prod.snd = ps.map Project.project_id := by
  induction ps generalizing vecs with
  | nil =>
    simp only [loadProjectVectors] at h
    cases h
    rfl
  | cons p rest ih =>
    simp only [loadProjectVectors] at h
    cases hv : p.project_skillset_vector with
    | none => rw [hv] at h; cases h
    | some v =>
      rw [hv] at h
      cases hr : loadProjectVectors rest with
      | error e => rw [hr] at h; cases h
      | ok tail =>
        rw [hr] at h
        cases h
        simp [ih tail hr]

/-! ## Lemmas about the cluster builds -/

/-- With a cached partition and no refresh request, the project build is a
no-op. -/
theorem cluster_projects_noop (km : KMeansModel) (db : DB) {s : Settings}
    (h : s.project_clusters ≠ none) :
    cluster_projects km db s false = (s, none) := by
  unfold cluster_projects
  rw [if_neg (by simp [h])]

/-- A failing corpus fetch aborts the project build before any global is
assigned, re-raising the fetch exception. -/
theorem cluster_projects_fetch_error (km : KMeansModel) (db : DB)
    (s : Settings) (refresh : Bool) (e : String)
    (hg : s.project_clusters = none ∨ refresh = true)
    (he : get_projects_skillsets db = .error e) :
    cluster_projects km db s refresh = (s, some e) := by
  unfold cluster_projects
  rw [if_pos hg, he]

/-- A corpus below eight vectors makes the KMeans fit raise, after the
vector global has already been reassigned. -/
theorem cluster_projects_small (km : KMeansModel) (db : DB) (s : Settings)
    (refresh : Bool) (vecs : List (Vec × Nat))
    (hg : s.project_clusters = none ∨ refresh = true)
    (hok : get_projects_skillsets db = .ok vecs) (hlt : vecs.length < 8) :
    cluster_projects km db s refresh
      = ({ s with projects_skillset_vectors := some vecs },
         some "ValueError: n_samples < n_clusters") := by
  unfold cluster_projects kmeans_fit
  rw [if_pos hg, hok]
  dsimp only
  rw [if_pos (by simpa using hlt)]

/-- A corpus of at least eight vectors builds: all three project globals are
reassigned from the fetched corpus. -/
theorem cluster_projects_build (km : KMeansModel) (db : DB) (s : Settings)
    (refresh : Bool) (vecs : List (Vec × Nat))
    (hg : s.project_clusters = none ∨ refresh = true)
    (hok : get_projects_skillsets db = .ok vecs) (hge : 8 ≤ vecs.length) :
    cluster_projects km db s refresh
      = ({ s with
            projects_skillset_vectors := some vecs
            projects_centroids := some (km.run (vecs.map Prod.fst) 8).1
            project_clusters := some (buildClusters 8 (km.run (vecs.map Prod.fst) 8).2) },
         none) := by
  unfold cluster_projects kmeans_fit
  rw [if_pos hg, hok]
  dsimp only
  rw [if_neg (by simp only [List.length_map]; omega)]

/-- With a cached partition and no refresh request, the candidate build is a
no-op. -/
theorem cluster_candidates_noop (km : KMeansModel) (D : Nat) (db : DB)
    {s : Settings} (h : s.candidate_clusters ≠ none) :
    cluster_candidates km D db s false = (s, none) := by
  unfold cluster_candidates
  rw [if_neg (by simp [h])]

/-- A corpus below four candidates returns early: no exception, no global
assignment, no partition. -/
theorem cluster_candidates_small (km : KMeansModel) (D : Nat) (db : DB)
    (s : Settings) (refresh : Bool)
    (hg : s.candidate_clusters = none ∨ refresh = true)
    (hlt : (get_user_skillsets_all D db).length < 4) :
    cluster_candidates km D db s refresh = (s, none) := by
  unfold cluster_candidates
  rw [if_pos hg]
  dsimp only
  rw [if_pos hlt]

/-- A corpus of at least four candidates builds: all three candidate globals
are reassigned from the fetched corpus. -/
theorem cluster_candidates_build (km : KMeansModel) (D : Nat) (db : DB)
    (s : Settings) (refresh : Bool)
    (hg : s.candidate_clusters = none ∨ refresh = true)
    (hge : 4 ≤ (get_user_skillsets_all D db).length) :
    cluster_candidates km D db s refresh
      = ({ s with
            candidates_skillset_vectors := some (get_user_skillsets_all D db)
            candidates_centroids :=
              some (km.run ((get_user_skillsets_all D db).map Prod.fst) 4).1
            candidate_clusters :=
              some (buildClusters 4
                (km.run ((get_user_skillsets_all D db).map Prod.fst) 4).2) },
         none) := by
  unfold cluster_candidates kmeans_fit
  rw [if_pos hg]
  dsimp only
  rw [if_neg (by omega), if_neg (by simp only [List.length_map]; omega)]

/-- When every selected row carries a vector, loading succeeds. -/
theorem loadProjectVectors_ok_of_no_null (ps : List Project)
    (h : ∀ p ∈ ps, p.project_skillset_vector ≠ none) :
    ∃ vecs, loadProjectVectors ps = .ok vecs := by
  cases hr : loadProjectVectors ps with
  | error e =>
    obtain ⟨p, hp, hpn⟩ := (loadProjectVectors_error_iff ps).mp ⟨e, hr⟩
    exact absurd hpn (h p hp)
  | ok vecs => exact ⟨vecs, rfl⟩

/-- When every active project carries a vector, the corpus fetch succeeds
and returns exactly the active project ids in order. -/
theorem get_projects_skillsets_ok_of_no_null (db : DB)
    (h : ∀ p ∈ db.projects, p.project_status = true →
      p.project_skillset_vector ≠ none) :
    ∃ vecs, get_projects_skillsets db = .ok vecs ∧
      vecs.map Prod.snd
        = (db.projects.filter (·.project_status)).map Project.project_id := by
  obtain ⟨vecs, hok⟩ := loadProjectVectors_ok_of_no_null
    (db.projects.filter (·.project_status))
    (fun p hp => h p (List.mem_of_mem_filter hp)
      (by simpa using (List.mem_filter.mp hp).2))
  exact ⟨vecs, hok, loadProjectVectors_ok_ids _ _ hok⟩

/-- Elimination form of a successful refreshing project build. -/
theorem cluster_projects_refresh_ok (km : KMeansModel) (db : DB)
    (s s1 : Settings) (h : cluster_projects km db s true = (s1, none)) :
    ∃ vecs, get_projects_skillsets db = .ok vecs ∧ 8 ≤ vecs.length ∧
      s1 = { s with
              projects_skillset_vectors := some vecs
              projects_centroids := some (km.run (vecs.map Prod.fst) 8).1
              project_clusters :=
                some (buildClusters 8 (km.run (vecs.map Prod.fst) 8).2) } := by
  cases hf : get_projects_skillsets db with
  | error e =>
    rw [cluster_projects_fetch_error km db s true e (Or.inr rfl) hf] at h
    simp at h
  | ok vecs =>
    by_cases hlt : vecs.length < 8
    · rw [cluster_projects_small km db s true vecs (Or.inr rfl) hf hlt] at h
      simp at h
    · rw [cluster_projects_build km db s true vecs (Or.inr rfl) hf (by omega)] at h
      exact ⟨vecs, rfl, by omega, (Prod.mk.injEq _ _ _ _ |>.mp h).1.symm⟩

/-- Elimination form of a successful refreshing candidate build over a
corpus of at least four. -/
theorem cluster_candidates_refresh_ok (km : KMeansModel) (D : Nat) (db : DB)
    (t t1 : Settings) (hge : 4 ≤ (get_user_skillsets_all D db).length)
    (h : cluster_candidates km D db t true = (t1, none)) :
    t1 = { t with
            candidates_skillset_vectors := some (get_user_skillsets_all D db)
            candidates_centroids :=
              some (km.run ((get_user_skillsets_all D db).map Prod.fst) 4).1
            candidate_clusters :=
              some (buildClusters 4
                (km.run ((get_user_skillsets_all D db).map Prod.fst) 4).2) } := by
  rw [cluster_candidates_build km D db t true (Or.inr rfl) hge] at h
  exact (Prod.mk.injEq _ _ _ _ |>.mp h).1.symm

/-- The project vector global after any project build call is either
untouched or holds the fetched corpus. -/
theorem cluster_projects_vectors (km : KMeansModel) (db : DB) (s : Settings)
    (b : Bool) (vecs : List (Vec × Nat))
    (hok : get_projects_skillsets db = .ok vecs) :
    (cluster_projects km db s b).1.projects_skillset_vectors
        = s.projects_skillset_vectors
      ∨ (cluster_projects km db s b).1.projects_skillset_vectors = some vecs := by
  by_cases hg : s.project_clusters = none ∨ b = true
  · by_cases hlt : vecs.length < 8
    · rw [cluster_projects_small km db s b vecs hg hok hlt]
      exact Or.inr rfl
    · rw [cluster_projects_build km db s b vecs hg hok (by omega)]
      exact Or.inr rfl
  · left
    unfold cluster_projects
    rw [if_neg hg]

/-- A failing project build propagates its exception through the ranking
entry point. -/
theorem get_ranked_projects_cluster_error (km : KMeansModel)
    (sim : Vec → Vec → ℚ) (db : DB) (s : Settings) (q : Vec)
    (s1 : Settings) (e : String)
    (h : cluster_projects km db s false = (s1, some e)) :
    get_ranked_projects km sim db s q = (s1, .error e) := by
  unfold get_ranked_projects
  rw [h]

/-- Successful rankings draw every returned id from the project vector
global left by the lazy build step. -/
theorem get_ranked_projects_ok_srcs {km : KMeansModel} {sim : Vec → Vec → ℚ}
    {db : DB} {s : Settings} {q : Vec} {s2 : Settings} {out : List (Nat × ℚ)}
    (h : get_ranked_projects km sim db s q = (s2, .ok out)) :
    ∃ vecs, (cluster_projects km db s false).1.projects_skillset_vectors
        = some vecs ∧ ∀ pr ∈ out, ∃ v, (v, pr.1) ∈ vecs := by
  unfold get_ranked_projects at h
  split at h
  · rename_i s1 e heq
    simp only [Prod.mk.injEq] at h
    cases h.2
  · rename_i s1 heq
    split at h
    · rename_i cents cls vecs hc1 hc2 hc3
      simp only [Prod.mk.injEq] at h
      refine ⟨vecs, ?_, ?_⟩
      · rw [heq]
        exact hc3
      · intro pr hpr
        exact rank_members_ok_ids (h.2) pr hpr
    · simp only [Prod.mk.injEq] at h
      cases h.2

/-- The member lists built from in-range labels partition the sample index
range. -/
theorem buildClusters_partition (K : Nat) (labels : List Nat) (n : Nat)
    (hn : labels.length = n) (hlt : ∀ l ∈ labels, l < K) :
    IsPartition K n (buildClusters K labels) := by
  subst hn
  refine ⟨buildClusters_length K labels, ?_, ?_⟩
  · intro j hj
    refine ⟨labels[j], hlt _ (List.getElem_mem hj), ?_, ?_⟩
    · exact (mem_buildClusters_iff K labels labels[j] j
        (hlt _ (List.getElem_mem hj))).mpr ⟨hj, rfl⟩
    · intro d hd hmem
      obtain ⟨_, hlab⟩ := (mem_buildClusters_iff K labels d j hd).mp hmem
      exact hlab.symm
  · intro c hc
    refine ⟨buildClusters_nodup K labels c hc, ?_⟩
    intro j hj
    obtain ⟨h, _⟩ := (mem_buildClusters_iff K labels c j hc).mp hj
    exact h

/-! ## Claim theorems -/

/-- C5: after every successful cluster build over a store snapshot of n
vectors, every vector-store index in 0..n-1 appears in exactly one member
list, the union of the member lists is the full index range, and no index
occurs twice (project build with K = 8, candidate build with K = 4). -/
theorem C5_cluster_coverage (km : KMeansModel) (D : Nat) (db db2 : DB)
    (s s1 t t1 : Settings)
    (hp : cluster_projects km db s true = (s1, none))
    (hc4 : 4 ≤ (get_user_skillsets_all D db2).length)
    (hc : cluster_candidates km D db2 t true = (t1, none)) :
    (∀ vecs cls, s1.projects_skillset_vectors = some vecs →
      s1.project_clusters = some cls → IsPartition 8 vecs.length cls) ∧
    (∀ vecs cls, t1.candidates_skillset_vectors = some vecs →
      t1.candidate_clusters = some cls → IsPartition 4 vecs.length cls) := by
  constructor
  · intro vecs cls hv hcl
    obtain ⟨vecs0, hok, hge, hs1⟩ := cluster_projects_refresh_ok km db s s1 hp
    rw [hs1] at hv hcl
    simp only [Option.some.injEq] at hv hcl
    subst hv
    subst hcl
    exact buildClusters_partition 8 _ _
      (by rw [km.labels_length, List.length_map]) (km.labels_lt _ _ (by omega))
  · intro vecs cls hv hcl
    have ht1 := cluster_candidates_refresh_ok km D db2 t t1 hc4 hc
    rw [ht1] at hv hcl
    simp only [Option.some.injEq] at hv hcl
    subst hv
    subst hcl
    exact buildClusters_partition 4 _ _
      (by rw [km.labels_length, List.length_map]) (km.labels_lt _ _ (by omega))

/-- Witness for C5 at a concrete eight-project corpus and a concrete
four-seeker corpus. -/
theorem C5_cluster_coverage_witness :
    cluster_projects kmeansTrivial dbEightProjects Settings.initial true
        = ((cluster_projects kmeansTrivial dbEightProjects Settings.initial true).1,
           none) ∧
    4 ≤ (get_user_skillsets_all 1 dbFourSeekers).length ∧
    cluster_candidates kmeansTrivial 1 dbFourSeekers Settings.initial true
        = ((cluster_candidates kmeansTrivial 1 dbFourSeekers
              Settings.initial true).1, none) ∧
    ((∀ vecs cls,
        (cluster_projects kmeansTrivial dbEightProjects Settings.initial
            true).1.projects_skillset_vectors = some vecs →
        (cluster_projects kmeansTrivial dbEightProjects Settings.initial
            true).1.project_clusters = some cls →
        IsPartition 8 vecs.length cls) ∧
      (∀ vecs cls,
        (cluster_candidates kmeansTrivial 1 dbFourSeekers Settings.initial
            true).1.candidates_skillset_vectors = some vecs →
        (cluster_candidates kmeansTrivial 1 dbFourSeekers Settings.initial
            true).1.candidate_clusters = some cls →
        IsPartition 4 vecs.length cls)) :=
  ⟨by decide, by decide, by decide,
    C5_cluster_coverage kmeansTrivial 1 dbEightProjects dbFourSeekers
      Settings.initial _ Settings.initial _ (by decide) (by decide) (by decide)⟩

/-- C8: each raw skill string is lowercased, stripped, stripped of every
character outside lowercase letters, whitespace and plus, and split on
whitespace (so every emitted token is a nonempty string over a-z and plus);
a flat list of strings yields one flattened token sequence, a list of
sub-lists yields one unflattened token sequence per sub-list; the
normalizer is total, so no input raises. -/
theorem C8_normalizer_shape (skills : List String) (sks : List (List String))
    (s : String) (hne : skills ≠ []) :
    preprocess_skillsets (skills.map SkillItem.str)
        = .inr ((skills.map normalizeString).flatten) ∧
    preprocess_skillsets (sks.map SkillItem.lst) = .inl (sks.map normalizeList) ∧
    ∀ t ∈ normalizeString s,
      t ≠ "" ∧ ∀ c ∈ t.toList, ('a' ≤ c ∧ c ≤ 'z') ∨ c = '+' :=
  ⟨preprocess_flat skills hne, preprocess_nested sks, normalizeString_tokens s⟩

/-- Witness for C8 at concrete inputs. -/
theorem C8_normalizer_shape_witness :
    (["C++ Dev!", "SQL"] : List String) ≠ [] ∧
    (preprocess_skillsets ((["C++ Dev!", "SQL"] : List String).map SkillItem.str)
        = .inr (((["C++ Dev!", "SQL"] : List String).map normalizeString).flatten) ∧
      preprocess_skillsets ([["Java", "Spring Boot"], ["React js"]].map SkillItem.lst)
        = .inl ([["Java", "Spring Boot"], ["React js"]].map normalizeList) ∧
      ∀ t ∈ normalizeString " Py thon-3 ",
        t ≠ "" ∧ ∀ c ∈ t.toList, ('a' ≤ c ∧ c ≤ 'z') ∨ c = '+') :=
  ⟨by decide,
    C8_normalizer_shape ["C++ Dev!", "SQL"] [["Java", "Spring Boot"], ["React js"]]
      " Py thon-3 " (by decide)⟩

/-- C9: synthesis is deterministic: the same skill list always yields the
same vector, and skill lists equal up to normalization yield bit-identical
vectors, for every fixed embedding provider. -/
theorem C9_synthesis_deterministic (emb : String → Vec) (D : Nat)
    (S s1 s2 : List String) (h : flatTokens s1 = flatTokens s2) :
    synthesize emb D S = synthesize emb D S ∧
    synthesize emb D s1 = synthesize emb D s2 :=
  ⟨rfl, synthesize_congr emb D s1 s2 h⟩

/-- Witness for C9: two spellings of the same skill list normalize alike
and therefore synthesize alike. -/
theorem C9_synthesis_deterministic_witness :
    flatTokens ["  Python! "] = flatTokens ["python"] ∧
    (synthesize embConst 1 ["sql"] = synthesize embConst 1 ["sql"] ∧
      synthesize embConst 1 ["  Python! "] = synthesize embConst 1 ["python"]) :=
  ⟨by decide, C9_synthesis_deterministic embConst 1 ["sql"] ["  Python! "]
    ["python"] (by decide)⟩

/-- C7 counterexample: at the query-entity-side synthesis site of the old
engine, the empty skill list does not produce the all-zero vector of the
model dimension (spec example dimension 300); numpy mean of an empty list
yields no vector at all. -/
theorem C7_counterexample :
    query_side_vector embConst [] = none ∧
    query_side_vector embConst [] ≠ some (List.replicate 300 (0 : ℚ)) := by
  constructor
  · rfl
  · decide

/-- C7 amended: every emptiness-guarded synthesis site (project create and
update, job-seeker update, and the project side of the old engine) returns
the all-zero vector of dimension D on empty or fully-stripped skill lists,
but the query-entity-side synthesis site of the old engine has no guard and
returns no vector there. -/
theorem C7_zero_fallback (emb : String → Vec) (D : Nat)
    (skills : List String) (h : flatTokens skills = []) :
    synthesize emb D [] = List.replicate D 0 ∧
    synthesize emb D ["", "   "] = List.replicate D 0 ∧
    synthesize emb D skills = List.replicate D 0 ∧
    query_side_vector emb skills = none :=
  ⟨synthesize_no_tokens emb D [] rfl,
   synthesize_no_tokens emb D ["", "   "] (by decide),
   synthesize_no_tokens emb D skills h,
   query_side_no_tokens emb skills h⟩

/-- Witness for C7 amended at a whitespace-only skill list. -/
theorem C7_zero_fallback_witness :
    flatTokens ["", "  "] = [] ∧
    (synthesize embConst 2 [] = List.replicate 2 0 ∧
      synthesize embConst 2 ["", "   "] = List.replicate 2 0 ∧
      synthesize embConst 2 ["", "  "] = List.replicate 2 0 ∧
      query_side_vector embConst ["", "  "] = none) :=
  ⟨by decide, C7_zero_fallback embConst 2 ["", "  "] (by decide)⟩

/-! ## Evaluation lemmas for the mutations -/

/-- The create mutation always commits the insert, and its settings outcome
is the state left by the eager refreshing build over the new corpus. -/
theorem add_project_eval (km : KMeansModel) (emb : String → Vec) (D : Nat)
    (inp : CreateProjectInput) (db : DB) (s : Settings) :
    (add_project km emb D inp db s).1 = addedProjectDb emb D inp db ∧
    (add_project km emb D inp db s).2.1
      = (cluster_projects km (addedProjectDb emb D inp db) s true).1 := by
  unfold add_project
  rcases h : cluster_projects km (addedProjectDb emb D inp db) s true with ⟨s1, e⟩
  cases e <;> simp [h]

/-- When the row exists, the delete mutation commits the deletion and its
settings outcome is the state left by the eager refreshing build over the
reduced corpus. -/
theorem delete_project_eval (km : KMeansModel) (db : DB) (s : Settings)
    (pid : Nat)
    (hfound : ¬ (db.projects.filter (fun p => p.project_id = pid)).isEmpty
      = true) :
    (delete_project km db s pid).1 = deletedProjectDb db pid ∧
    (delete_project km db s pid).2.1
      = (cluster_projects km (deletedProjectDb db pid) s true).1 := by
  unfold delete_project
  rw [if_neg hfound]
  rcases h : cluster_projects km (deletedProjectDb db pid) s true with ⟨s1, e⟩
  cases e <;> simp [h]

/-- The delete mutation reports success exactly when the eager rebuild did
not raise. -/
theorem delete_project_flag (km : KMeansModel) (db : DB) (s : Settings)
    (pid : Nat)
    (hfound : ¬ (db.projects.filter (fun p => p.project_id = pid)).isEmpty
      = true) :
    (delete_project km db s pid).2.2 = true
      ↔ (cluster_projects km (deletedProjectDb db pid) s true).2 = none := by
  unfold delete_project
  rw [if_neg hfound]
  rcases h : cluster_projects km (deletedProjectDb db pid) s true with ⟨s1, e⟩
  cases e <;> simp [h]

/-- When the seeker exists, the update mutation commits the row update and
its settings outcome is the state left by the eager refreshing candidate
build over the updated corpus. -/
theorem update_job_seeker_eval (km : KMeansModel) (emb : String → Vec)
    (D : Nat) (inp : UpdateJobSeekerInput) (db : DB) (s : Settings)
    (hfound : ¬ (db.jobSeekers.filter
        (fun j => j.seeker_id = inp.seeker_id)).isEmpty = true) :
    (update_job_seeker km emb D inp db s).1 = updatedSeekerDb emb D inp db ∧
    (update_job_seeker km emb D inp db s).2.1
      = (cluster_candidates km D (updatedSeekerDb emb D inp db) s true).1 := by
  unfold update_job_seeker
  rw [if_neg hfound]
  rcases h : cluster_candidates km D (updatedSeekerDb emb D inp db) s true
    with ⟨s1, e⟩
  cases e <;> simp [h]

/-- A small-corpus candidate build that left the centroids unset makes the
rank call raise. -/
theorem get_ranked_candidates_none_centroids (km : KMeansModel)
    (sim : Vec → Vec → ℚ) (D : Nat) (db : DB) (s : Settings) (q : Vec)
    (h : cluster_candidates km D db s false = (s, none))
    (hc : s.candidates_centroids = none) :
    (get_ranked_candidates km sim D db s q).2
      = .error "TypeError: NoneType is not iterable" := by
  unfold get_ranked_candidates
  rw [h]
  dsimp only
  rw [hc]

/-- C1 counterexample: with a two-candidate corpus (below K = 4) the rank
call surfaces an error to the caller instead of linearly ranking the whole
store and returning every eligible entity. -/
theorem C1_counterexample :
    (get_ranked_candidates kmeansTrivial simZero 1 dbTwoSeekers
        Settings.initial [0]).2
      = .error "TypeError: NoneType is not iterable" := by decide

/-- C1 amended: with fewer candidates than K = 4 the candidate build does
return without building and without raising, but the following rank call
raises a TypeError instead of falling back to a linear scan; with fewer
active projects than K = 8 the project build itself raises a ValueError
from the KMeans fit.  No linear fallback exists. -/
theorem C1_small_corpus (km : KMeansModel) (sim : Vec → Vec → ℚ) (D : Nat)
    (db db2 : DB) (s s2 : Settings) (q : Vec) (vecs : List (Vec × Nat))
    (hc1 : s.candidate_clusters = none) (hc2 : s.candidates_centroids = none)
    (hlt : (get_user_skillsets_all D db).length < 4)
    (hp1 : s2.project_clusters = none)
    (hok : get_projects_skillsets db2 = .ok vecs) (hlt8 : vecs.length < 8) :
    cluster_candidates km D db s false = (s, none) ∧
    (get_ranked_candidates km sim D db s q).2
      = .error "TypeError: NoneType is not iterable" ∧
    (cluster_projects km db2 s2 false).2
      = some "ValueError: n_samples < n_clusters" := by
  have hsmall := cluster_candidates_small km D db s false (Or.inl hc1) hlt
  refine ⟨hsmall, ?_, ?_⟩
  · exact get_ranked_candidates_none_centroids km sim D db s q hsmall hc2
  · rw [cluster_projects_small km db2 s2 false vecs (Or.inl hp1) hok hlt8]

/-- Witness for C1 amended at a two-candidate corpus and a two-project
corpus. -/
theorem C1_small_corpus_witness :
    Settings.initial.candidate_clusters = none ∧
    Settings.initial.candidates_centroids = none ∧
    (get_user_skillsets_all 1 dbTwoSeekers).length < 4 ∧
    Settings.initial.project_clusters = none ∧
    get_projects_skillsets dbSevenProjects
      = .ok [([1], 1), ([1], 2), ([1], 3), ([1], 4), ([1], 5), ([1], 6),
             ([1], 7)] ∧
    ([(([1] : Vec), 1), ([1], 2), ([1], 3), ([1], 4), ([1], 5), ([1], 6),
      ([1], 7)]).length < 8 ∧
    (cluster_candidates kmeansTrivial 1 dbTwoSeekers Settings.initial false
        = (Settings.initial, none) ∧
      (get_ranked_candidates kmeansTrivial simZero 1 dbTwoSeekers
          Settings.initial [0]).2
        = .error "TypeError: NoneType is not iterable" ∧
      (cluster_projects kmeansTrivial dbSevenProjects Settings.initial
          false).2
        = some "ValueError: n_samples < n_clusters") :=
  ⟨rfl, rfl, by decide, rfl, by decide, by decide,
    C1_small_corpus kmeansTrivial simZero 1 dbTwoSeekers dbSevenProjects
      Settings.initial Settings.initial [0]
      [([1], 1), ([1], 2), ([1], 3), ([1], 4), ([1], 5), ([1], 6), ([1], 7)]
      rfl rfl (by decide) rfl (by decide) (by decide)⟩

/-- C2 counterexample: creating a project rebuilds the cluster partition
during the mutation itself: right after add_project returns, the settings
hold a freshly built partition of the post-mutation corpus rather than the
untouched pre-mutation value awaiting a lazy rebuild. -/
theorem C2_counterexample :
    (add_project kmeansTrivial embConst 1 ⟨8, true, some []⟩ dbSevenProjects
        staleSettings).2.1.project_clusters
      = some [[0], [1], [2], [3], [4], [5], [6], [7]] ∧
    (add_project kmeansTrivial embConst 1 ⟨8, true, some []⟩ dbSevenProjects
        staleSettings).2.1.project_clusters
      ≠ staleSettings.project_clusters := by
  constructor
  · decide
  · decide

/-- C2 amended: a committing project creation or seeker update triggers a
full eager rebuild at mutation time, leaving the settings already rebuilt
over the post-mutation corpus (no stale marking, no lazy rebuild; only the
rank-time build of an uncached state is lazy). -/
theorem C2_eager_rebuild (km : KMeansModel) (emb : String → Vec) (D : Nat)
    (inp : CreateProjectInput) (db : DB) (s : Settings)
    (inpJ : UpdateJobSeekerInput) (dbJ : DB) (sJ : Settings)
    (vecs : List (Vec × Nat))
    (hok : get_projects_skillsets (addedProjectDb emb D inp db) = .ok vecs)
    (hge : 8 ≤ vecs.length)
    (hfound : ¬ (dbJ.jobSeekers.filter
        (fun j => j.seeker_id = inpJ.seeker_id)).isEmpty = true)
    (hge4 : 4 ≤ (get_user_skillsets_all D
        (updatedSeekerDb emb D inpJ dbJ)).length) :
    ((add_project km emb D inp db s).2.1.projects_skillset_vectors
        = some vecs ∧
      (add_project km emb D inp db s).2.1.project_clusters
        = some (buildClusters 8 (km.run (vecs.map Prod.fst) 8).2)) ∧
    ((update_job_seeker km emb D inpJ dbJ sJ).2.1.candidates_skillset_vectors
        = some (get_user_skillsets_all D (updatedSeekerDb emb D inpJ dbJ)) ∧
      (update_job_seeker km emb D inpJ dbJ sJ).2.1.candidate_clusters
        = some (buildClusters 4 (km.run ((get_user_skillsets_all D
            (updatedSeekerDb emb D inpJ dbJ)).map Prod.fst) 4).2)) := by
  constructor
  · have h2 := (add_project_eval km emb D inp db s).2
    rw [h2, cluster_projects_build km _ s true vecs (Or.inr rfl) hok hge]
    exact ⟨rfl, rfl⟩
  · have h2 := (update_job_seeker_eval km emb D inpJ dbJ sJ hfound).2
    rw [h2, cluster_candidates_build km D _ sJ true (Or.inr rfl) hge4]
    exact ⟨rfl, rfl⟩

/-- Witness for C2 amended: an eighth project is created and a seeker is
updated over a four-seeker corpus. -/
theorem C2_eager_rebuild_witness :
    get_projects_skillsets
        (addedProjectDb embConst 1 ⟨8, true, some []⟩ dbSevenProjects)
      = .ok [([1], 1), ([1], 2), ([1], 3), ([1], 4), ([1], 5), ([1], 6),
             ([1], 7), ([0], 8)] ∧
    8 ≤ ([(([1] : Vec), 1), ([1], 2), ([1], 3), ([1], 4), ([1], 5), ([1], 6),
          ([1], 7), ([0], 8)]).length ∧
    ¬ (dbFourSeekers.jobSeekers.filter (fun j => j.seeker_id = 1)).isEmpty
      = true ∧
    4 ≤ (get_user_skillsets_all 1
        (updatedSeekerDb embConst 1 ⟨1, none, none⟩ dbFourSeekers)).length ∧
    (((add_project kmeansTrivial embConst 1 ⟨8, true, some []⟩
          dbSevenProjects staleSettings).2.1.projects_skillset_vectors
        = some [([1], 1), ([1], 2), ([1], 3), ([1], 4), ([1], 5), ([1], 6),
                ([1], 7), ([0], 8)] ∧
      (add_project kmeansTrivial embConst 1 ⟨8, true, some []⟩
          dbSevenProjects staleSettings).2.1.project_clusters
        = some (buildClusters 8 (kmeansTrivial.run
            (([([1], 1), ([1], 2), ([1], 3), ([1], 4), ([1], 5), ([1], 6),
              ([1], 7), (([0] : Vec), 8)]).map Prod.fst) 8).2)) ∧
     ((update_job_seeker kmeansTrivial embConst 1 ⟨1, none, none⟩
          dbFourSeekers Settings.initial).2.1.candidates_skillset_vectors
        = some (get_user_skillsets_all 1
            (updatedSeekerDb embConst 1 ⟨1, none, none⟩ dbFourSeekers)) ∧
      (update_job_seeker kmeansTrivial embConst 1 ⟨1, none, none⟩
          dbFourSeekers Settings.initial).2.1.candidate_clusters
        = some (buildClusters 4 (kmeansTrivial.run
            ((get_user_skillsets_all 1
              (updatedSeekerDb embConst 1 ⟨1, none, none⟩
                dbFourSeekers)).map Prod.fst) 4).2))) :=
  ⟨by decide, by decide, by decide, by decide,
    C2_eager_rebuild kmeansTrivial embConst 1 ⟨8, true, some []⟩
      dbSevenProjects staleSettings ⟨1, none, none⟩ dbFourSeekers
      Settings.initial _ (by decide) (by decide) (by decide) (by decide)⟩

/-- C10: the project cluster build succeeds only if every active project
has a stored vector.  A NULL vector on any active project makes the corpus
fetch raise, the error propagates through the lazy build of an unbuilt
index into the recommendation request, and creating a project without the
skills field stores exactly such a NULL vector. -/
theorem C10_null_vector_build (km : KMeansModel) (sim : Vec → Vec → ℚ)
    (db : DB) (s : Settings) (q : Vec) (emb : String → Vec) (D : Nat)
    (inp : CreateProjectInput) (dbA : DB) (sA : Settings)
    (hnull : ∃ p ∈ db.projects, p.project_status = true ∧
      p.project_skillset_vector = none)
    (hunbuilt : s.project_clusters = none) (hskill : inp.skills = none) :
    (∃ e, get_projects_skillsets db = .error e ∧
      cluster_projects km db s false = (s, some e) ∧
      (get_ranked_projects km sim db s q).2 = .error e) ∧
    (∀ db2 : DB, (∃ vecs, get_projects_skillsets db2 = .ok vecs) →
      ∀ p ∈ db2.projects, p.project_status = true →
        p.project_skillset_vector ≠ none) ∧
    (add_project km emb D inp dbA sA).1
      = { dbA with projects := dbA.projects ++
          [{ project_id := inp.project_id
             project_status := inp.project_status
             project_skillset_vector := none }] } := by
  refine ⟨?_, ?_, ?_⟩
  · obtain ⟨p, hp, hps, hpn⟩ := hnull
    obtain ⟨e, he⟩ := (loadProjectVectors_error_iff
        (db.projects.filter (·.project_status))).mpr
      ⟨p, List.mem_filter.mpr ⟨hp, by simpa using hps⟩, hpn⟩
    refine ⟨e, he, ?_, ?_⟩
    · exact cluster_projects_fetch_error km db s false e (Or.inl hunbuilt) he
    · rw [get_ranked_projects_cluster_error km sim db s q s e
        (cluster_projects_fetch_error km db s false e (Or.inl hunbuilt) he)]
  · rintro db2 ⟨vecs, hok⟩ p hp hps hpn
    obtain ⟨e, he⟩ := (loadProjectVectors_error_iff
        (db2.projects.filter (·.project_status))).mpr
      ⟨p, List.mem_filter.mpr ⟨hp, by simpa using hps⟩, hpn⟩
    have : get_projects_skillsets db2 = .error e := he
    rw [hok] at this
    cases this
  · rw [(add_project_eval km emb D inp dbA sA).1]
    simp [addedProjectDb, hskill]

/-- Witness for C10 at a one-project corpus whose only active project has a
NULL vector. -/
theorem C10_null_vector_build_witness :
    (∃ p ∈ dbNullProject.projects, p.project_status = true ∧
      p.project_skillset_vector = none) ∧
    Settings.initial.project_clusters = none ∧
    (⟨9, true, none⟩ : CreateProjectInput).skills = none ∧
    ((∃ e, get_projects_skillsets dbNullProject = .error e ∧
        cluster_projects kmeansTrivial dbNullProject Settings.initial false
          = (Settings.initial, some e) ∧
        (get_ranked_projects kmeansTrivial simZero dbNullProject
            Settings.initial [0]).2 = .error e) ∧
      (∀ db2 : DB, (∃ vecs, get_projects_skillsets db2 = .ok vecs) →
        ∀ p ∈ db2.projects, p.project_status = true →
          p.project_skillset_vector ≠ none) ∧
      (add_project kmeansTrivial embConst 1 ⟨9, true, none⟩ dbSevenProjects
          Settings.initial).1
        = { dbSevenProjects with projects := dbSevenProjects.projects ++
            [{ project_id := 9
               project_status := true
               project_skillset_vector := none }] }) :=
  ⟨⟨⟨1, true, none⟩, by decide, rfl, rfl⟩, rfl, rfl,
    C10_null_vector_build kmeansTrivial simZero dbNullProject
      Settings.initial [0] embConst 1 ⟨9, true, none⟩ dbSevenProjects
      Settings.initial ⟨⟨1, true, none⟩, by decide, rfl, rfl⟩ rfl rfl⟩

/-- C4: for every query vector and built snapshot (KMeans centroids and the
member lists built from its labels over the vector store), ranking selects
the single centroid of maximum similarity — ties broken by lowest cluster
index, the first occurrence of the maximum — and returns exactly the
members of that one cluster and nothing from any other cluster. -/
theorem C4_rank_selects_first_argmax_cluster (km : KMeansModel)
    (sim : Vec → Vec → ℚ) (q : Vec) (K : Nat) (vecs : List (Vec × Nat))
    (hK : 0 < K) (hle : K ≤ vecs.length) :
    let r := km.run (vecs.map Prod.fst) K
    let cls := buildClusters K r.2
    let sims := r.1.map (fun c => sim q c)
    let ci := np_argmax sims
    ∃ out, rank_members sim q r.1 cls vecs = .ok out ∧
      (∀ j, j < K → sims.getD j 0 ≤ sims.getD ci 0) ∧
      (∀ j, j < ci → sims.getD j 0 < sims.getD ci 0) ∧
      out.Perm ((cls.getD ci []).map (fun i =>
        ((vecs.getD i ([], 0)).2, sim q (vecs.getD i ([], 0)).1))) := by
  intro r cls sims ci
  have hclen : r.1.length = K := km.centroids_length _ _
  have hsims_len : sims.length = K := by
    simp only [sims, List.length_map, hclen]
  have hsims_ne : sims ≠ [] := by
    intro hc
    rw [hc] at hsims_len
    simp at hsims_len
    omega
  have hci : ci < K := by
    have := np_argmax_lt_length sims hsims_ne
    rw [hsims_len] at this
    exact this
  have hlab_len : r.2.length = vecs.length := by
    rw [km.labels_length, List.length_map]
  have hlab_lt : ∀ l ∈ r.2, l < K := km.labels_lt _ _ hK
  have hclsK : cls.length = K := buildClusters_length K r.2
  have hcig : ci < cls.length := by rw [hclsK]; exact hci
  have h2 : cls[ci]? = some (cls.getD ci []) := by
    rw [List.getD_eq_getElem?_getD, List.getElem?_eq_getElem hcig]
    rfl
  have hbound : ∀ i ∈ cls.getD ci [], i < vecs.length := by
    intro i hi
    obtain ⟨hlt, _⟩ := (mem_buildClusters_iff K r.2 ci i hci).mp hi
    rw [hlab_len] at hlt
    exact hlt
  have hmem_ci : ci ∈ r.2 :=
    km.labels_onto _ _ hK (by rw [List.length_map]; exact hle) ci hci
  obtain ⟨j, hjlt, hjv⟩ := List.mem_iff_getElem.mp hmem_ci
  have hne : cls.getD ci [] ≠ [] :=
    List.ne_nil_of_mem ((mem_buildClusters_iff K r.2 ci j hci).mpr ⟨hjlt, hjv⟩)
  have hcents_ne : r.1 ≠ [] := by
    intro hc
    rw [hc] at hclen
    simp at hclen
    omega
  refine ⟨_, rank_members_ok_intro sim q r.1 cls vecs (cls.getD ci [])
    hcents_ne h2 hbound hne, ?_, ?_, ?_⟩
  · intro j hj
    exact np_argmax_is_max sims j (by rw [hsims_len]; exact hj)
  · intro j hj
    exact np_argmax_first sims j hj
  · exact sortDesc_perm _

/-- Witness for C4 at a four-candidate snapshot. -/
theorem C4_rank_selects_first_argmax_cluster_witness :
    0 < 4 ∧ 4 ≤ ([(([1] : Vec), 1), ([1], 2), ([1], 3), ([1], 4)]).length ∧
    (let r := kmeansTrivial.run
        (([(([1] : Vec), 1), ([1], 2), ([1], 3), ([1], 4)]).map Prod.fst) 4
     let cls := buildClusters 4 r.2
     let sims := r.1.map (fun c => simZero [0] c)
     let ci := np_argmax sims
     ∃ out, rank_members simZero [0] r.1 cls
          [(([1] : Vec), 1), ([1], 2), ([1], 3), ([1], 4)] = .ok out ∧
        (∀ j, j < 4 → sims.getD j 0 ≤ sims.getD ci 0) ∧
        (∀ j, j < ci → sims.getD j 0 < sims.getD ci 0) ∧
        out.Perm ((cls.getD ci []).map (fun i =>
          ((([(([1] : Vec), 1), ([1], 2), ([1], 3), ([1], 4)]).getD
              i ([], 0)).2,
           simZero [0] (([(([1] : Vec), 1), ([1], 2), ([1], 3),
              ([1], 4)]).getD i ([], 0)).1)))) :=
  ⟨by decide, by decide,
    C4_rank_selects_first_argmax_cluster kmeansTrivial simZero [0] 4
      [([1], 1), ([1], 2), ([1], 3), ([1], 4)] (by decide) (by decide)⟩

/-- C6: every successful rank output is sorted by score descending — each
adjacent pair is non-increasing — and equal scores keep the stable
pre-sort snapshot order: at every fixed score the output subsequence equals
the member subsequence. -/
theorem C6_rank_sorted_stable (sim : Vec → Vec → ℚ) (q : Vec)
    (cents : List Vec) (cls : List (List Nat)) (vecs : List (Vec × Nat))
    (out : List (Nat × ℚ))
    (h : rank_members sim q cents cls vecs = .ok out) :
    (∀ i, (hi : i + 1 < out.length) → out[i + 1].2 ≤ out[i].2) ∧
    ∃ members, cls[np_argmax (cents.map (fun c => sim q c))]? = some members ∧
      out.Perm (members.map (fun i =>
        ((vecs.getD i ([], 0)).2, sim q (vecs.getD i ([], 0)).1))) ∧
      ∀ c : ℚ, out.filter (fun p => p.2 = c)
        = (members.map (fun i =>
            ((vecs.getD i ([], 0)).2,
             sim q (vecs.getD i ([], 0)).1))).filter (fun p => p.2 = c) := by
  obtain ⟨members, hcl, hbound, hne, hout⟩ := rank_members_ok_elim h
  constructor
  · intro i hi
    have hsorted := sortDesc_sorted (members.map (fun i =>
      ((vecs.getD i ([], 0)).2, sim q (vecs.getD i ([], 0)).1)))
    rw [← hout] at hsorted
    exact List.pairwise_iff_getElem.mp hsorted i (i + 1)
      (by omega) hi (by omega)
  · refine ⟨members, hcl, ?_, ?_⟩
    · rw [hout]
      exact sortDesc_perm _
    · intro c
      rw [hout]
      exact sortDesc_filter _ c

/-- Witness for C6 at a concrete two-member snapshot with tied scores. -/
theorem C6_rank_sorted_stable_witness :
    rank_members simZero [0] [[1]] [[0, 1]] [(([1] : Vec), 1), ([2], 2)]
        = .ok [(1, 0), (2, 0)] ∧
    ((∀ i, (hi : i + 1 < ([((1 : Nat), (0 : ℚ)), (2, 0)]).length) →
        ([((1 : Nat), (0 : ℚ)), (2, 0)])[i + 1].2
          ≤ ([((1 : Nat), (0 : ℚ)), (2, 0)])[i].2) ∧
      ∃ members,
        ([[0, 1]] : List (List Nat))[np_argmax
            (([[1]] : List Vec).map (fun c => simZero [0] c))]?
          = some members ∧
        ([((1 : Nat), (0 : ℚ)), (2, 0)]).Perm (members.map (fun i =>
          ((([(([1] : Vec), 1), ([2], 2)]).getD i ([], 0)).2,
           simZero [0] (([(([1] : Vec), 1), ([2], 2)]).getD i ([], 0)).1))) ∧
        ∀ c : ℚ, ([((1 : Nat), (0 : ℚ)), (2, 0)]).filter (fun p => p.2 = c)
          = (members.map (fun i =>
              ((([(([1] : Vec), 1), ([2], 2)]).getD i ([], 0)).2,
               simZero [0] (([(([1] : Vec), 1),
                  ([2], 2)]).getD i ([], 0)).1))).filter
              (fun p => p.2 = c)) :=
  ⟨by decide,
    C6_rank_sorted_stable simZero [0] [[1]] [[0, 1]] [([1], 1), ([2], 2)]
      [(1, 0), (2, 0)] (by decide)⟩

/-- When the project build actually runs (uncached or refresh) over a corpus
that fetches successfully, the vector global afterwards holds the fetched
corpus, whether or not the KMeans fit raised. -/
theorem cluster_projects_vectors_built (km : KMeansModel) (db : DB)
    (s : Settings) (b : Bool) (vecs : List (Vec × Nat))
    (hg : s.project_clusters = none ∨ b = true)
    (hok : get_projects_skillsets db = .ok vecs) :
    (cluster_projects km db s b).1.projects_skillset_vectors = some vecs := by
  by_cases hlt : vecs.length < 8
  · rw [cluster_projects_small km db s b vecs hg hok hlt]
  · rw [cluster_projects_build km db s b vecs hg hok (by omega)]

/-- C3: once a deletion has committed, no subsequent rank call for any
query returns the deleted id, and whenever the post-deletion rebuild
succeeded, the cached snapshot holds only current-corpus entries with every
member index inside the new corpus.  The hypotheses say the deleted row
existed and every remaining active project carries a stored vector — the
invariant maintained by the create and update mutations, which always
store one. -/
theorem C3_deleted_never_ranked (km : KMeansModel) (sim : Vec → Vec → ℚ)
    (db : DB) (s : Settings) (pid : Nat) (q : Vec)
    (hfound : ¬ (db.projects.filter
        (fun p => p.project_id = pid)).isEmpty = true)
    (hnonull : ∀ p ∈ db.projects, p.project_status = true →
      p.project_id ≠ pid → p.project_skillset_vector ≠ none) :
    (∀ s2 out, get_ranked_projects km sim (delete_project km db s pid).1
        (delete_project km db s pid).2.1 q = (s2, .ok out) →
      ∀ sc : ℚ, (pid, sc) ∉ out) ∧
    ((delete_project km db s pid).2.2 = true →
      ∃ vecs, (delete_project km db s pid).2.1.projects_skillset_vectors
          = some vecs ∧
        pid ∉ vecs.map Prod.snd ∧
        (delete_project km db s pid).2.1.project_clusters
          = some (buildClusters 8 (km.run (vecs.map Prod.fst) 8).2) ∧
        ∀ members ∈ buildClusters 8 (km.run (vecs.map Prod.fst) 8).2,
          ∀ i ∈ members, i < vecs.length) := by
  have hdel := delete_project_eval km db s pid hfound
  have hnn1 : ∀ p ∈ (deletedProjectDb db pid).projects,
      p.project_status = true → p.project_skillset_vector ≠ none := by
    intro p hp hps
    have hp' := List.mem_filter.mp hp
    refine hnonull p hp'.1 hps ?_
    have := hp'.2
    simp only [decide_not, Bool.not_eq_true', decide_eq_false_iff_not] at this
    exact this
  obtain ⟨vecs, hok, hids⟩ :=
    get_projects_skillsets_ok_of_no_null (deletedProjectDb db pid) hnn1
  have hpid : pid ∉ vecs.map Prod.snd := by
    rw [hids]
    intro hmem
    simp only [List.mem_map] at hmem
    obtain ⟨p, hp, hpeq⟩ := hmem
    have hp1 := List.mem_of_mem_filter hp
    have hp2 := (List.mem_filter.mp hp1).2
    simp only [decide_not, Bool.not_eq_true', decide_eq_false_iff_not] at hp2
    exact hp2 hpeq
  have hsv : (delete_project km db s pid).2.1.projects_skillset_vectors
      = some vecs := by
    rw [hdel.2]
    exact cluster_projects_vectors_built km _ s true vecs (Or.inr rfl) hok
  constructor
  · intro s2 out hrank sc hmem
    rw [hdel.1] at hrank
    obtain ⟨vecs2, hv2, hsrc⟩ := get_ranked_projects_ok_srcs hrank
    have hveq : vecs2 = vecs := by
      by_cases hg : (delete_project km db s pid).2.1.project_clusters = none
      · have := cluster_projects_vectors_built km (deletedProjectDb db pid)
          (delete_project km db s pid).2.1 false vecs (Or.inl hg) hok
        rw [this] at hv2
        exact (Option.some.injEq _ _ |>.mp hv2).symm
      · rw [cluster_projects_noop km (deletedProjectDb db pid) hg] at hv2
        rw [hsv] at hv2
        exact (Option.some.injEq _ _ |>.mp hv2).symm
    obtain ⟨v, hv⟩ := hsrc (pid, sc) hmem
    apply hpid
    rw [hveq] at hv
    simp only [List.mem_map]
    exact ⟨(v, pid), hv, rfl⟩
  · intro hflag
    rw [delete_project_flag km db s pid hfound] at hflag
    have hpair : cluster_projects km (deletedProjectDb db pid) s true
        = ((cluster_projects km (deletedProjectDb db pid) s true).1, none) := by
      rw [← hflag]
    obtain ⟨vecs0, hok0, hge0, hs1⟩ :=
      cluster_projects_refresh_ok km (deletedProjectDb db pid) s _ hpair
    have hveq : vecs0 = vecs := by
      rw [hok] at hok0
      exact (Except.ok.inj hok0).symm
    subst hveq
    refine ⟨vecs0, hsv, hpid, ?_, ?_⟩
    · rw [hdel.2, hs1]
    · intro members hmem i hi
      obtain ⟨c, hc, hcv⟩ := List.mem_iff_getElem.mp hmem
      have hgetD : (buildClusters 8
          (km.run (vecs0.map Prod.fst) 8).2).getD c [] = members := by
        rw [List.getD_eq_getElem?_getD, List.getElem?_eq_getElem hc, hcv]
        rfl
      have hcK : c < 8 := by
        have := buildClusters_length 8 (km.run (vecs0.map Prod.fst) 8).2
        omega
      rw [← hgetD] at hi
      obtain ⟨hlt, _⟩ := (mem_buildClusters_iff 8 _ c i hcK).mp hi
      rw [km.labels_length, List.length_map] at hlt
      exact hlt

/-- Witness for C3: the ninth project is deleted from a nine-project
corpus, the eager rebuild succeeds over the remaining eight. -/
theorem C3_deleted_never_ranked_witness :
    ¬ (dbNineProjects.projects.filter
        (fun p => p.project_id = 9)).isEmpty = true ∧
    (∀ p ∈ dbNineProjects.projects, p.project_status = true →
      p.project_id ≠ 9 → p.project_skillset_vector ≠ none) ∧
    ((∀ s2 out, get_ranked_projects kmeansTrivial simZero
        (delete_project kmeansTrivial dbNineProjects Settings.initial 9).1
        (delete_project kmeansTrivial dbNineProjects Settings.initial 9).2.1
        [0] = (s2, .ok out) → ∀ sc : ℚ, (9, sc) ∉ out) ∧
      ((delete_project kmeansTrivial dbNineProjects Settings.initial 9).2.2
          = true →
        ∃ vecs, (delete_project kmeansTrivial dbNineProjects
            Settings.initial 9).2.1.projects_skillset_vectors = some vecs ∧
          9 ∉ vecs.map Prod.snd ∧
          (delete_project kmeansTrivial dbNineProjects
              Settings.initial 9).2.1.project_clusters
            = some (buildClusters 8
                (kmeansTrivial.run (vecs.map Prod.fst) 8).2) ∧
          ∀ members ∈ buildClusters 8
              (kmeansTrivial.run (vecs.map Prod.fst) 8).2,
            ∀ i ∈ members, i < vecs.length)) :=
  ⟨by decide, by decide,
    C3_deleted_never_ranked kmeansTrivial simZero dbNineProjects
      Settings.initial 9 [0] (by decide) (by decide)⟩

end ProRecom
